import Mathlib

/-!
Verification of the protocol core of drobo-utils: the SCSI pass-through
transport layer (get_sub_page / put_sub_page), the bitfield and LED
decoders, the firmware-image validator, the diagnostic-log XOR decoder,
the session transaction counter and the device-handle close logic.

The Python modules Drobo.py and DroboIOctl.py are not part of the staged
sources (only their test suites are), so every definition below is a
shallow embedding modelled from the specification, with the exact
numeric behaviour (field offsets, status codes, residual arithmetic,
wrap-around bounds) pinned by the unit tests in src/tests.
-/

set_option maxRecDepth 8000

/-- Modelled from the spec: the maximum of the rolling transaction-id
sequence (domain 1..=250); `Drobo.MAX_TRANSACTION` in the source. -/
def MAX_TRANSACTION : Nat := 250

/-- Modelled from the spec: one increment of the session transaction
counter, performed before each request: it wraps from the configured
maximum back to 1 (never 0). -/
def nextTransaction (t : Nat) : Nat := t % MAX_TRANSACTION + 1

/-- Modelled from the spec: the fixed constant the first byte of a
diagnostic stream is XORed with to recover the real key (0x2d, pinned by
test_decode_diagnostics_xor). -/
def diagKeyConst : Nat := 0x2d

/-- Modelled from the spec: the on-device obfuscation of a diagnostic
log: first byte is the key XORed with the fixed constant, every
subsequent byte is the plaintext byte XORed with the key. -/
def encodeDiagnostics (key : Nat) (plaintext : List Nat) : List Nat :=
  (key ^^^ diagKeyConst) :: plaintext.map (fun b => b ^^^ key)

/-- Modelled from the spec: `Drobo.decodeDiagnostics` stream decoding:
read the first byte as the obfuscated key, XOR it with the fixed
constant to recover the real key, XOR every remaining byte with that
key; an empty source yields an empty result rather than an error. -/
def decodeDiagnostics : List Nat → List Nat
  | [] => []
  | k :: rest => rest.map (fun b => b ^^^ (k ^^^ diagKeyConst))

/-- A bay LED indication: a single solid colour or a two-colour
flashing pair. -/
inductive LedState where
  | solid (c : String)
  | flashing (a b : String)
deriving DecidableEq

/-- Modelled from the spec: `Drobo._ledstatus`: codes 0-6 map to a fixed
table black, red, yellow, green, [red,green], [red,yellow], [red,black];
a code with the high bit set (0x80, remaining bits ignored) is an empty
slot, gray; any other code is out of domain (`none`, reported as an
error rather than guessed). -/
def _ledstatus (code : Nat) : Option LedState :=
  if code.testBit 7 then some (LedState.solid "gray")
  else match code with
  | 0 => some (LedState.solid "black")
  | 1 => some (LedState.solid "red")
  | 2 => some (LedState.solid "yellow")
  | 3 => some (LedState.solid "green")
  | 4 => some (LedState.flashing "red" "green")
  | 5 => some (LedState.flashing "red" "yellow")
  | 6 => some (LedState.flashing "red" "black")
  | _ => none

/-- Modelled from the spec: `Drobo._partformat`: bit 0 = NO FORMAT,
bit 1 = NTFS, bit 2 = HFS, bit 3 or bit 7 = EXT3, absence of all known
bits = FAT32. The second component records whether the non-fatal
ambiguity warning diagnostic (more than one matched category) was
emitted. -/
def _partformat (flags : Nat) : List String × Bool :=
  let f : List String :=
    (if flags.testBit 0 then ["NO FORMAT"] else [])
      ++ (if flags.testBit 1 then ["NTFS"] else [])
      ++ (if flags.testBit 2 then ["HFS"] else [])
      ++ (if flags.testBit 3 || flags.testBit 7 then ["EXT3"] else [])
  let g : List String := if f.isEmpty then ["FAT32"] else f
  (g, decide (1 < g.length))

/-- The `sg_fd` field of a device handle: either the open Python file
object wrapping the device node, or a plain integer (the closed
sentinel -1, or a raw descriptor number). -/
inductive SgFd where
  | handle
  | fd (n : Int)
deriving DecidableEq

/-- What one call of `closefd` does: the new value of `sg_fd` and
whether the underlying device resource was actually closed. -/
structure CloseEffect where
  newFd : SgFd
  closedUnderlying : Bool
deriving DecidableEq

/-- Modelled from the spec: `DroboIOctl.closefd`: when `sg_fd` is still
the open file object it closes it; when it is already a plain integer
(an already-closed handle) it does not touch the underlying resource;
in both cases it then sets `sg_fd` to the closed sentinel -1. -/
def closefd : SgFd → CloseEffect
  | SgFd.handle => ⟨SgFd.fd (-1), true⟩
  | SgFd.fd _ => ⟨SgFd.fd (-1), false⟩

/-- The fields of the completed `sg_io_hdr` pass-through request the
transport inspects after the blocking control call: the control call's
return code, the SCSI status byte, and the residual (bytes requested
but not transferred). -/
structure SgOutcome where
  ret : Int
  status : Nat
  resid : Nat
deriving DecidableEq

/-- How one transport invocation ends, as seen by the caller: a read
returned a trimmed buffer, a write returned a byte count, the call
returned the Python `None` sentinel (after printing a message), or an
IOError propagated out of the call. -/
inductive XferResult where
  | got (buf : List Nat)
  | written (n : Nat)
  | noneReturned
  | raised (msg : String)
deriving DecidableEq

/-- Modelled from the spec: `DroboIOctl.get_sub_page` (read-style
transceive): issues one blocking control call; a negative return code
raises IOError (ioctl failed); a nonzero status byte (check-condition
included) raises IOError; on good status the buffer the device filled
is trimmed to `pagelen - resid` bytes and returned. `devData` stands
for the `pagelen`-byte buffer as the control call left it. -/
def get_sub_page (pagelen : Nat) (devData : List Nat) (o : SgOutcome) : XferResult :=
  if o.ret < 0 then XferResult.raised "ioctl failed"
  else if o.status ≠ 0 then XferResult.raised "get_sub_page bad status"
  else XferResult.got (devData.take (pagelen - o.resid))

/-- Modelled from the spec: `DroboIOctl.put_sub_page` (write-style
transceive): issues one blocking control call; a negative return code
is reported by returning `None` (after printing ioctl failed); a status
byte other than 0 (good) and 2 (check-condition) is likewise reported
by returning `None`; otherwise the number of bytes actually written,
`buff.length - resid`, is returned — status 2 is a soft failure that
still reports the (possibly partial) count. The `None` returns (rather
than raised IOErrors) are pinned by test_put_sub_page_ioctl_error and
test_put_sub_page_bad_status. -/
def put_sub_page (buff : List Nat) (o : SgOutcome) : XferResult :=
  if o.ret < 0 then XferResult.noneReturned
  else if o.status ≠ 0 ∧ o.status ≠ 2 then XferResult.noneReturned
  else XferResult.written (buff.length - o.resid)

/-- Big-endian 32-bit field of a byte list at a given offset (bytes
past the end read as 0, as a short image simply fails the later
checks). -/
def be32 (l : List Nat) (off : Nat) : Nat :=
  l.getD off 0 * 16777216 + l.getD (off + 1) 0 * 65536
    + l.getD (off + 2) 0 * 256 + l.getD (off + 3) 0

/-- The four big-endian bytes of a 32-bit value. -/
def be32bytes (n : Nat) : List Nat :=
  [n / 16777216 % 256, n / 65536 % 256, n / 256 % 256, n % 256]

/-- One shift-and-conditionally-xor step of the reflected CRC-32
polynomial 0xEDB88320 (the zlib-compatible checksum). -/
def crc32Round (c : Nat) : Nat :=
  if c % 2 = 1 then c / 2 ^^^ 0xEDB88320 else c / 2

/-- `crc32Rounds n c` applies `crc32Round` n times. -/
def crc32Rounds : Nat → Nat → Nat
  | 0, c => c
  | n + 1, c => crc32Rounds n (crc32Round c)

/-- Fold one input byte into a CRC-32 accumulator: xor it in, then run
the eight bit rounds. -/
def crc32Byte (c b : Nat) : Nat := crc32Rounds 8 (c ^^^ b)

/-- Standard zlib-compatible CRC32 of a byte list: accumulator starts
at 0xFFFFFFFF, each byte is folded in, and the result is complemented. -/
def crc32 (data : List Nat) : Nat :=
  data.foldl crc32Byte 0xFFFFFFFF ^^^ 0xFFFFFFFF

/-- The expected 4-byte magic marker of a firmware image, TDIH. -/
def fwMagic : List Nat := [84, 68, 73, 72]

/-- The distinguishable outcomes of firmware validation. -/
inductive FwValidation where
  | Ok
  | LengthMismatch
  | BadMagic
  | HeaderCrcMismatch
  | BodyCrcMismatch
deriving DecidableEq

/-- The header bytes of an image with the 4-byte header-CRC field
(offsets 308..311, pinned by TestDroboValidateFirmwareMore) temporarily
zeroed, the range CRC32 is recomputed over in check (3). -/
def headerZeroed (image : List Nat) : List Nat :=
  (image.take (be32 image 0)).take 308 ++ [0, 0, 0, 0]
    ++ (image.take (be32 image 0)).drop 312

/-- Modelled from the spec: `Drobo.validateFirmware`, four ordered
checks, each its own failure reason: (1) total length must equal
headerLength (offset 0) + bodyLength (offset 44); (2) the 4-byte magic
field at offset 8 must be TDIH; (3) CRC32 recomputed over the header
with the header-CRC field (offset 308) zeroed must equal that declared
field; (4) CRC32 recomputed over the body must equal the declared body
CRC (offset 48). Field offsets are pinned by the firmware-validation
tests in src/tests/test_drobo.py. -/
def validateFirmware (image : List Nat) : FwValidation :=
  if image.length ≠ be32 image 0 + be32 image 44 then FwValidation.LengthMismatch
  else if (image.drop 8).take 4 ≠ fwMagic then FwValidation.BadMagic
  else if crc32 (headerZeroed image) ≠ be32 image 308 then FwValidation.HeaderCrcMismatch
  else if crc32 (image.drop (be32 image 0)) ≠ be32 image 48 then FwValidation.BodyCrcMismatch
  else FwValidation.Ok

/-- A one-byte firmware body for the concrete well-formed image. -/
def wfBody : List Nat := [171]

/-- The first 48 header bytes, laid out as the tests pack them:
headerLength 312 at offset 0, version at 4, magic TDIH at 8, reserved
fields, bodyLength 1 at 44. -/
def wfHeadA : List Nat :=
  [0, 0, 1, 56] ++ [0, 0, 0, 1] ++ fwMagic ++ List.replicate 32 0 ++ [0, 0, 0, 1]

/-- Header bytes 0..307: the fixed fields, then the declared body CRC
at offset 48, then a 256-byte about area. -/
def wfHeaderPrefix : List Nat :=
  wfHeadA ++ be32bytes (crc32 wfBody) ++ List.replicate 256 0

/-- The full 312-byte header with the header-CRC field (offset 308)
still zeroed: the range the header CRC is computed over. -/
def wfHeaderZeroed : List Nat := wfHeaderPrefix ++ [0, 0, 0, 0]

/-- The well-formed 313-byte firmware image: the header with its CRC
field filled in with the CRC32 of the zeroed header, followed by the
body. -/
def wfImage : List Nat :=
  wfHeaderPrefix ++ be32bytes (crc32 wfHeaderZeroed) ++ wfBody

/-- The well-formed image with a byte appended: declared lengths no
longer add up to the total. -/
def fwBadLength : List Nat := wfImage ++ [0]

/-- The well-formed image with its magic altered (first magic byte
overwritten with X). -/
def fwBadMagic : List Nat := wfImage.set 8 88

/-- The well-formed image with its declared header CRC altered: the
stored field no longer equals the CRC32 recomputed over the header. -/
def fwBadHeaderCrc : List Nat :=
  wfHeaderPrefix ++ be32bytes ((crc32 wfHeaderZeroed + 1) % 4294967296) ++ wfBody

/-- The well-formed image with its body byte tampered with after the
body CRC was computed. -/
def fwBadBodyCrc : List Nat :=
  wfHeaderPrefix ++ be32bytes (crc32 wfHeaderZeroed) ++ [0]

/-- The known unit-status conditions, one per defined bit of the 32-bit
status mask, in ascending bit order (bit 0 is the all-clear bit and
contributes no entry). -/
def unitConditions : List (Nat × String) :=
  [(1, "Red alert"), (2, "Yellow alert"), (3, "No disks"), (4, "Bad disk"),
   (5, "Too many missing disks"), (6, "No redundancy"), (7, "No magic hotspare"),
   (8, "no space left"), (9, "Relay out in progress"), (10, "Format in progress"),
   (11, "Mismatched disks"), (12, "Unknown version"), (13, "New firmware installed"),
   (14, "New LUN available after reboot")]

/-- Whether any bit of the 32-bit mask outside the known condition set
(bits 15..31) is set. -/
def hasUnknownStatusBit (m : Nat) : Bool :=
  (List.range 32).any fun i => decide (14 < i) && m.testBit i

/-- Modelled from the spec: `Drobo._unitstatus`: iterate the defined
bits in ascending order appending the matching condition strings, then
append one aggregated Unknown error entry when any bit outside the
known set is set; mask 0 (and the all-clear bit 0 alone) yields the
empty list. -/
def _unitstatus (m : Nat) : List String :=
  (unitConditions.filter fun p => m.testBit p.1).map Prod.snd
    ++ (if hasUnknownStatusBit m then ["Unknown error"] else [])

/-- Claim C5: the transaction counter is always driven back into the
domain 1..=250 by an increment: a counter at 250 wraps to 1 (never 0),
and a counter at 1 incremented 249 times reaches 250. -/
theorem transaction_counter_spec :
    (∀ t : Nat, 1 ≤ nextTransaction t ∧ nextTransaction t ≤ MAX_TRANSACTION) ∧
    nextTransaction MAX_TRANSACTION = 1 ∧
    nextTransaction^[249] 1 = 250 ∧
    (∀ t : Nat, nextTransaction t ≠ 0) := by
  refine ⟨fun t => ?_, by decide, by decide, fun t => ?_⟩ <;>
    simp only [nextTransaction, MAX_TRANSACTION] <;> omega

/-- Claim C7: the diagnostic-log XOR scheme round-trips: decoding an
encoding of any byte sequence (the empty one included) under any key
yields the original plaintext; an empty stream decodes to the empty
result. -/
theorem diagnostics_roundtrip_spec :
    (∀ (key : Nat) (plaintext : List Nat),
      decodeDiagnostics (encodeDiagnostics key plaintext) = plaintext) ∧
    decodeDiagnostics [] = [] := by
  refine ⟨fun key plaintext => ?_, rfl⟩
  simp only [encodeDiagnostics, decodeDiagnostics, List.map_map]
  have hk : key ^^^ diagKeyConst ^^^ diagKeyConst = key := by
    rw [Nat.xor_assoc, Nat.xor_self, Nat.xor_zero]
  rw [hk]
  have : ∀ b : Nat, b ^^^ key ^^^ key = b := fun b => by
    rw [Nat.xor_assoc, Nat.xor_self, Nat.xor_zero]
  calc (plaintext.map fun b => (b ^^^ key) ^^^ key) = plaintext.map id := by
        exact List.map_congr_left (fun b _ => this b)
    _ = plaintext := List.map_id plaintext

/-- Claim C8: the LED-status decoder maps codes 0-6 to the fixed table
black, red, yellow, green, [red,green], [red,yellow], [red,black]; every
8-bit code with the high bit set maps to gray (empty slot); every other
code is out of domain and reported as an error (`none`), not guessed. -/
theorem ledstatus_spec :
    _ledstatus 0 = some (LedState.solid "black") ∧
    _ledstatus 1 = some (LedState.solid "red") ∧
    _ledstatus 2 = some (LedState.solid "yellow") ∧
    _ledstatus 3 = some (LedState.solid "green") ∧
    _ledstatus 4 = some (LedState.flashing "red" "green") ∧
    _ledstatus 5 = some (LedState.flashing "red" "yellow") ∧
    _ledstatus 6 = some (LedState.flashing "red" "black") ∧
    (∀ c < 256, c.testBit 7 = true → _ledstatus c = some (LedState.solid "gray")) ∧
    (∀ c < 256, c.testBit 7 = false → 6 < c → _ledstatus c = none) := by
  refine ⟨rfl, rfl, rfl, rfl, rfl, rfl, rfl, ?_, ?_⟩ <;> decide

/-- Claim C9: the partition-format decoder yields FAT32 exactly when no
known bit is set; bit 0 contributes NO FORMAT, bit 1 NTFS, bit 2 HFS,
bit 3 or bit 7 EXT3; when more than one category matches (for example
flags 0x03) every matched category is in the result and the non-fatal
ambiguity warning is emitted. -/
theorem partformat_spec :
    (_partformat 0x00).1 = ["FAT32"] ∧ (_partformat 0x00).2 = false ∧
    (_partformat 0x02).1 = ["NTFS"] ∧
    (_partformat 0x03).1 = ["NO FORMAT", "NTFS"] ∧ (_partformat 0x03).2 = true ∧
    (∀ flags < 256,
      ("NO FORMAT" ∈ (_partformat flags).1 ↔ flags.testBit 0) ∧
      ("NTFS" ∈ (_partformat flags).1 ↔ flags.testBit 1) ∧
      ("HFS" ∈ (_partformat flags).1 ↔ flags.testBit 2) ∧
      ("EXT3" ∈ (_partformat flags).1 ↔ (flags.testBit 3 || flags.testBit 7)) ∧
      ("FAT32" ∈ (_partformat flags).1 ↔
        (!flags.testBit 0 && !flags.testBit 1 && !flags.testBit 2 &&
         !(flags.testBit 3 || flags.testBit 7))) ∧
      ((_partformat flags).2 = true ↔
        2 ≤ (if flags.testBit 0 then 1 else 0) + (if flags.testBit 1 then 1 else 0)
          + (if flags.testBit 2 then 1 else 0)
          + (if flags.testBit 3 || flags.testBit 7 then 1 else 0))) := by
  refine ⟨rfl, rfl, rfl, rfl, rfl, ?_⟩
  decide

/-- Claim C1: with good completion status (0), a read-style invocation
returns a buffer trimmed to `requested_length - residual` bytes, and a
write-style invocation reports `buffer_length - residual` bytes
written. -/
theorem transceive_residual_spec (pagelen : Nat) (devData buff : List Nat)
    (o op : SgOutcome)
    (hlen : devData.length = pagelen) (hres : o.resid ≤ pagelen)
    (hret : 0 ≤ o.ret) (hstat : o.status = 0)
    (hretp : 0 ≤ op.ret) (hstatp : op.status = 0) :
    (∃ buf, get_sub_page pagelen devData o = XferResult.got buf ∧
        buf.length = pagelen - o.resid) ∧
    put_sub_page buff op = XferResult.written (buff.length - op.resid) := by
  refine ⟨⟨devData.take (pagelen - o.resid), ?_, ?_⟩, ?_⟩
  · unfold get_sub_page
    rw [if_neg (by omega), if_neg (by omega)]
  · rw [List.length_take, hlen]
    omega
  · unfold put_sub_page
    rw [if_neg (by omega), if_neg (by omega)]

/-- Witness for C1: a 20-byte read completing with residual 5 returns
15 bytes (test_get_sub_page_with_resid); a 9-byte write completing
with residual 2 reports 7 bytes written (test_put_sub_page_with_resid). -/
theorem transceive_residual_witness :
    (∃ buf, get_sub_page 20 (List.replicate 20 7) ⟨0, 0, 5⟩ = XferResult.got buf ∧
        buf.length = 20 - 5) ∧
    put_sub_page (List.replicate 9 1) ⟨0, 0, 2⟩ =
      XferResult.written ((List.replicate 9 1).length - 2) :=
  transceive_residual_spec 20 (List.replicate 20 7) (List.replicate 9 1)
    ⟨0, 0, 5⟩ ⟨0, 0, 2⟩ (by decide) (by decide) (by decide) rfl (by decide) rfl

/-- Claim C2: a completion status byte of 2 (check-condition) makes a
read-style invocation fail with a raised transport error, while a
write-style invocation is a soft failure that still returns the
(possibly partial) count of bytes written. -/
theorem check_condition_policy_spec (pagelen : Nat) (devData buff : List Nat)
    (o op : SgOutcome)
    (hstat : o.status = 2)
    (hretp : 0 ≤ op.ret) (hstatp : op.status = 2) :
    (∃ msg, get_sub_page pagelen devData o = XferResult.raised msg) ∧
    put_sub_page buff op = XferResult.written (buff.length - op.resid) := by
  constructor
  · by_cases h : o.ret < 0
    · exact ⟨"ioctl failed", by rw [get_sub_page, if_pos h]⟩
    · refine ⟨"get_sub_page bad status", ?_⟩
      unfold get_sub_page
      rw [if_neg h, if_pos (by omega)]
  · unfold put_sub_page
    rw [if_neg (by omega), if_neg (by simp [hstatp])]

/-- Witness for C2: a read completing with status 2 raises
(test_get_sub_page_bad_status); a 4-byte write completing with status 2
and residual 0 reports 4 bytes written (test_put_sub_page_status_2_ok). -/
theorem check_condition_witness :
    (∃ msg, get_sub_page 20 (List.replicate 20 0) ⟨0, 2, 0⟩ = XferResult.raised msg) ∧
    put_sub_page [116, 101, 115, 116] ⟨0, 2, 0⟩ = XferResult.written 4 :=
  check_condition_policy_spec 20 (List.replicate 20 0) [116, 101, 115, 116]
    ⟨0, 2, 0⟩ ⟨0, 2, 0⟩ rfl (by decide) rfl

/-- Claim C3 (amended): a negative control-call return code, and a
status byte other than 0 or 2, are fatal raised transport errors for
read-style invocations, surfaced unchanged; for write-style invocations
the same failures are reported by returning the `None` sentinel instead
of a byte count — a write-style invocation never raises at all. -/
theorem transceive_error_policy_spec (pagelen : Nat) (devData buff : List Nat)
    (o : SgOutcome) :
    (o.ret < 0 → get_sub_page pagelen devData o = XferResult.raised "ioctl failed") ∧
    (0 ≤ o.ret → o.status ≠ 0 →
      get_sub_page pagelen devData o = XferResult.raised "get_sub_page bad status") ∧
    (o.ret < 0 → put_sub_page buff o = XferResult.noneReturned) ∧
    (0 ≤ o.ret → o.status ≠ 0 → o.status ≠ 2 →
      put_sub_page buff o = XferResult.noneReturned) ∧
    (∀ msg, put_sub_page buff o ≠ XferResult.raised msg) := by
  refine ⟨fun h => ?_, fun h1 h2 => ?_, fun h => ?_, fun h1 h2 h3 => ?_, fun msg => ?_⟩
  · rw [get_sub_page, if_pos h]
  · unfold get_sub_page
    rw [if_neg (by omega), if_pos h2]
  · rw [put_sub_page, if_pos h]
  · unfold put_sub_page
    rw [if_neg (by omega), if_pos ⟨h2, h3⟩]
  · unfold put_sub_page
    split_ifs <;> simp

/-- Counterexample to C3 as stated: a write-style invocation whose
control call returns -1 (test_put_sub_page_ioctl_error, 4-byte buffer)
completes by returning the `None` sentinel — a silently substituted
default result — and does not surface any fatal transport error. -/
theorem put_ioctl_error_counterexample :
    put_sub_page [116, 101, 115, 116] ⟨-1, 0, 0⟩ = XferResult.noneReturned ∧
    (∀ msg, put_sub_page [116, 101, 115, 116] ⟨-1, 0, 0⟩ ≠ XferResult.raised msg) := by
  refine ⟨by decide, fun msg h => ?_⟩
  simp [put_sub_page] at h

/-- Claim C10: closing a session releases the underlying device
resource exactly once: closing an open handle closes the resource and
sets `sg_fd` to the -1 sentinel; a second close (or a close of any
handle already reduced to an integer fd) sets the sentinel again but
does not close the underlying resource a second time. -/
theorem closefd_spec :
    (closefd SgFd.handle).newFd = SgFd.fd (-1) ∧
    (closefd SgFd.handle).closedUnderlying = true ∧
    (∀ n : Int, (closefd (SgFd.fd n)).newFd = SgFd.fd (-1)) ∧
    (∀ n : Int, (closefd (SgFd.fd n)).closedUnderlying = false) ∧
    (closefd (closefd SgFd.handle).newFd).closedUnderlying = false := by
  exact ⟨rfl, rfl, fun n => rfl, fun n => rfl, rfl⟩

/-- The CRC32 model matches the standard zlib check value: the CRC of
the ASCII bytes of 123456789 is 0xCBF43926. -/
theorem crc32_check_vector : crc32 [49, 50, 51, 52, 53, 54, 55, 56, 57] = 0xCBF43926 := by
  decide

/-- A 32-bit field read strictly inside the left part of an append
ignores the right part. -/
theorem be32_append_left (P X : List Nat) (i : Nat) (h : i + 3 < P.length) :
    be32 (P ++ X) i = be32 P i := by
  simp only [be32]
  rw [List.getD_append _ _ _ _ (by omega), List.getD_append _ _ _ _ (by omega),
    List.getD_append _ _ _ _ (by omega), List.getD_append _ _ _ _ (by omega)]

/-- Reading a big-endian 32-bit field back from its four stored bytes,
placed right after a prefix, recovers the value. -/
theorem be32_at_bytes (P : List Nat) (n : Nat) (hn : n < 4294967296) :
    be32 (P ++ be32bytes n) P.length = n := by
  simp only [be32]
  rw [List.getD_append_right _ _ _ _ (Nat.le_refl _),
      List.getD_append_right _ _ _ _ (Nat.le_add_right _ _),
      List.getD_append_right _ _ _ _ (Nat.le_add_right _ _),
      List.getD_append_right _ _ _ _ (Nat.le_add_right _ _)]
  simp only [Nat.sub_self, Nat.add_sub_cancel_left]
  have g0 : (be32bytes n).getD 0 0 = n / 16777216 % 256 := rfl
  have g1 : (be32bytes n).getD 1 0 = n / 65536 % 256 := rfl
  have g2 : (be32bytes n).getD 2 0 = n / 256 % 256 := rfl
  have g3 : (be32bytes n).getD 3 0 = n % 256 := rfl
  rw [g0, g1, g2, g3]
  omega

/-- The CRC32 bit round keeps the accumulator below 2^32. -/
theorem crc32Round_lt (c : Nat) (h : c < 4294967296) : crc32Round c < 4294967296 := by
  have h2 : (2 : Nat) ^ 32 = 4294967296 := by norm_num
  unfold crc32Round
  split_ifs
  · have := Nat.xor_lt_two_pow (x := c / 2) (y := 0xEDB88320) (n := 32)
      (by omega) (by omega)
    omega
  · omega

/-- Iterated CRC32 bit rounds keep the accumulator below 2^32. -/
theorem crc32Rounds_lt (k : Nat) : ∀ c, c < 4294967296 → crc32Rounds k c < 4294967296 := by
  induction k with
  | zero => intro c h; exact h
  | succ n ih => intro c h; exact ih _ (crc32Round_lt c h)

/-- Folding a byte below 2^32 into an accumulator below 2^32 stays
below 2^32. -/
theorem crc32Byte_lt (c b : Nat) (hc : c < 4294967296) (hb : b < 4294967296) :
    crc32Byte c b < 4294967296 := by
  have h2 : (2 : Nat) ^ 32 = 4294967296 := by norm_num
  exact crc32Rounds_lt 8 _ (by
    have := Nat.xor_lt_two_pow (x := c) (y := b) (n := 32) (by omega) (by omega)
    omega)

/-- The CRC32 fold stays below 2^32 on byte input. -/
theorem crc32_foldl_lt (data : List Nat) :
    ∀ acc, acc < 4294967296 → (∀ b ∈ data, b < 4294967296) →
      data.foldl crc32Byte acc < 4294967296 := by
  induction data with
  | nil => intro acc h _; simpa using h
  | cons a t ih =>
    intro acc h hb
    simp only [List.foldl_cons]
    exact ih _ (crc32Byte_lt _ _ h (hb a (List.mem_cons_self a t)))
      (fun x hx => hb x (List.mem_cons_of_mem _ hx))

/-- CRC32 of a byte list is a 32-bit value. -/
theorem crc32_lt (data : List Nat) (h : ∀ b ∈ data, b < 4294967296) :
    crc32 data < 4294967296 := by
  have h2 : (2 : Nat) ^ 32 = 4294967296 := by norm_num
  unfold crc32
  have := Nat.xor_lt_two_pow (x := data.foldl crc32Byte 0xFFFFFFFF)
    (y := 0xFFFFFFFF) (n := 32) (by have := crc32_foldl_lt data 0xFFFFFFFF (by omega) h; omega)
    (by omega)
  omega

/-- The header prefix (bytes 0..307) has length 308. -/
theorem wfHeaderPrefix_length : wfHeaderPrefix.length = 308 := by
  simp [wfHeaderPrefix, wfHeadA, be32bytes, fwMagic]

/-- The structural facts `validateFirmware` consults about any image of
the shape header-prefix, then a stored 32-bit header-CRC field, then a
one-byte body. -/
theorem fwImage_shape (n : Nat) (R : List Nat) (hn : n < 4294967296) (hR : R.length = 1) :
    (wfHeaderPrefix ++ be32bytes n ++ R).length = 313 ∧
    be32 (wfHeaderPrefix ++ be32bytes n ++ R) 0 = 312 ∧
    be32 (wfHeaderPrefix ++ be32bytes n ++ R) 44 = 1 ∧
    ((wfHeaderPrefix ++ be32bytes n ++ R).drop 8).take 4 = fwMagic ∧
    headerZeroed (wfHeaderPrefix ++ be32bytes n ++ R) = wfHeaderZeroed ∧
    be32 (wfHeaderPrefix ++ be32bytes n ++ R) 308 = n ∧
    (wfHeaderPrefix ++ be32bytes n ++ R).drop 312 = R ∧
    be32 (wfHeaderPrefix ++ be32bytes n ++ R) 48 = crc32 wfBody := by
  have hP : wfHeaderPrefix.length = 308 := wfHeaderPrefix_length
  have hB : (be32bytes n).length = 4 := rfl
  have hL : (wfHeaderPrefix ++ be32bytes n).length = 312 := by
    rw [List.length_append, hP, hB]
  have hleft : ∀ i, i + 3 < 308 →
      be32 (wfHeaderPrefix ++ be32bytes n ++ R) i = be32 wfHeaderPrefix i := by
    intro i hi
    rw [be32_append_left _ _ _ (by omega), be32_append_left _ _ _ (by omega)]
  have hbe0 : be32 (wfHeaderPrefix ++ be32bytes n ++ R) 0 = 312 := by
    rw [hleft 0 (by omega)]; decide
  have hbe44 : be32 (wfHeaderPrefix ++ be32bytes n ++ R) 44 = 1 := by
    rw [hleft 44 (by omega)]; decide
  have hbe48 : be32 (wfHeaderPrefix ++ be32bytes n ++ R) 48 = crc32 wfBody := by
    rw [hleft 48 (by omega)]; decide
  have htake312 : (wfHeaderPrefix ++ be32bytes n ++ R).take 312
      = wfHeaderPrefix ++ be32bytes n := List.take_left' hL
  have hdrop312 : (wfHeaderPrefix ++ be32bytes n ++ R).drop 312 = R :=
    List.drop_left' hL
  have hbe308 : be32 (wfHeaderPrefix ++ be32bytes n ++ R) 308 = n := by
    rw [be32_append_left _ _ _ (by omega), show (308 : Nat) = wfHeaderPrefix.length from hP.symm]
    exact be32_at_bytes wfHeaderPrefix n hn
  refine ⟨?_, hbe0, hbe44, ?_, ?_, hbe308, hdrop312, hbe48⟩
  · rw [List.length_append, hL, hR]
  · rw [List.drop_append_of_le_length (by omega),
      List.take_append_of_le_length (by simp [List.length_drop, hL]),
      List.drop_append_of_le_length (by omega),
      List.take_append_of_le_length (by simp [List.length_drop, hP])]
    decide
  · simp only [headerZeroed, hbe0, htake312]
    rw [List.take_append_of_le_length (by omega), List.take_of_length_le (by omega),
      List.drop_eq_nil_of_le (by omega)]
    simp [wfHeaderZeroed]

/-- Claim C4: firmware validation runs four ordered checks, each with
its own distinguishable failure reason — total length must equal
headerLength + bodyLength (else LengthMismatch), the 4-byte magic field
must be the expected marker (else BadMagic), the declared header CRC
must equal CRC32 recomputed over the header with the header-CRC field
zeroed (else HeaderCrcMismatch), the declared body CRC must equal CRC32
recomputed over the body (else BodyCrcMismatch) — and accepts an image
passing all four; concretely, the well-formed 313-byte image wfImage is
accepted, and each tampered variant is rejected with the matching
reason. -/
theorem validateFirmware_spec :
    (∀ image : List Nat,
      (validateFirmware image = FwValidation.LengthMismatch ↔
        image.length ≠ be32 image 0 + be32 image 44) ∧
      (validateFirmware image = FwValidation.BadMagic ↔
        image.length = be32 image 0 + be32 image 44 ∧
        (image.drop 8).take 4 ≠ fwMagic) ∧
      (validateFirmware image = FwValidation.HeaderCrcMismatch ↔
        image.length = be32 image 0 + be32 image 44 ∧
        (image.drop 8).take 4 = fwMagic ∧
        crc32 (headerZeroed image) ≠ be32 image 308) ∧
      (validateFirmware image = FwValidation.BodyCrcMismatch ↔
        image.length = be32 image 0 + be32 image 44 ∧
        (image.drop 8).take 4 = fwMagic ∧
        crc32 (headerZeroed image) = be32 image 308 ∧
        crc32 (image.drop (be32 image 0)) ≠ be32 image 48) ∧
      (validateFirmware image = FwValidation.Ok ↔
        image.length = be32 image 0 + be32 image 44 ∧
        (image.drop 8).take 4 = fwMagic ∧
        crc32 (headerZeroed image) = be32 image 308 ∧
        crc32 (image.drop (be32 image 0)) = be32 image 48)) ∧
    validateFirmware wfImage = FwValidation.Ok ∧
    validateFirmware fwBadLength = FwValidation.LengthMismatch ∧
    validateFirmware fwBadMagic = FwValidation.BadMagic ∧
    validateFirmware fwBadHeaderCrc = FwValidation.HeaderCrcMismatch ∧
    validateFirmware fwBadBodyCrc = FwValidation.BodyCrcMismatch := by
  have hwfb : ∀ b ∈ wfHeaderZeroed, b < 4294967296 := by decide
  have hC : crc32 wfHeaderZeroed < 4294967296 := crc32_lt _ hwfb
  obtain ⟨hOk1, hOk2, hOk3, hOk4, hOk5, hOk6, hOk7, hOk8⟩ :=
    fwImage_shape (crc32 wfHeaderZeroed) wfBody hC rfl
  obtain ⟨hH1, hH2, hH3, hH4, hH5, hH6, hH7, hH8⟩ :=
    fwImage_shape ((crc32 wfHeaderZeroed + 1) % 4294967296) wfBody
      (Nat.mod_lt _ (by norm_num)) rfl
  obtain ⟨hB1, hB2, hB3, hB4, hB5, hB6, hB7, hB8⟩ :=
    fwImage_shape (crc32 wfHeaderZeroed) [0] hC rfl
  refine ⟨fun image => ?_, ?_, ?_, ?_, ?_, ?_⟩
  · unfold validateFirmware
    split_ifs with h1 h2 h3 h4 <;> simp_all
  · show validateFirmware (wfHeaderPrefix ++ be32bytes (crc32 wfHeaderZeroed) ++ wfBody)
      = FwValidation.Ok
    unfold validateFirmware
    rw [if_neg (by rw [hOk1, hOk2, hOk3]; decide),
      if_neg (by rw [hOk4]; simp),
      if_neg (by rw [hOk5, hOk6]; simp),
      if_neg (by rw [hOk2, hOk7, hOk8]; simp)]
  · show validateFirmware fwBadLength = FwValidation.LengthMismatch
    unfold validateFirmware
    rw [if_pos (by decide)]
  · show validateFirmware fwBadMagic = FwValidation.BadMagic
    unfold validateFirmware
    rw [if_neg (by decide), if_pos (by decide)]
  · show validateFirmware
      (wfHeaderPrefix ++ be32bytes ((crc32 wfHeaderZeroed + 1) % 4294967296) ++ wfBody)
      = FwValidation.HeaderCrcMismatch
    unfold validateFirmware
    rw [if_neg (by rw [hH1, hH2, hH3]; decide),
      if_neg (by rw [hH4]; simp),
      if_pos (by rw [hH5, hH6]; omega)]
  · show validateFirmware (wfHeaderPrefix ++ be32bytes (crc32 wfHeaderZeroed) ++ [0])
      = FwValidation.BodyCrcMismatch
    unfold validateFirmware
    rw [if_neg (by rw [hB1, hB2, hB3]; decide),
      if_neg (by rw [hB4]; simp),
      if_neg (by rw [hB5, hB6]; simp),
      if_pos (by rw [hB2, hB7, hB8]; decide)]

/-- Claim C6: for every 32-bit mask, the unit-status decoder returns
exactly one entry per set bit among the fourteen known conditions
(count 1 when the bit is set, 0 otherwise), exactly one aggregated
Unknown error entry when any unrecognized bit is set, and nothing else;
mask 0 yields the empty list; concretely, 0x12 decodes to Red alert and
Bad disk, and 0x10000012 additionally carries the aggregated unknown
entry. -/
theorem unitstatus_spec :
    _unitstatus 0 = [] ∧
    _unitstatus 0x12 = ["Red alert", "Bad disk"] ∧
    _unitstatus 0x10000012 = ["Red alert", "Bad disk", "Unknown error"] ∧
    ∀ m : Nat, m < 2 ^ 32 →
      (∀ p ∈ unitConditions,
        (_unitstatus m).count p.2 = if m.testBit p.1 then 1 else 0) ∧
      ((_unitstatus m).count "Unknown error"
        = if hasUnknownStatusBit m then 1 else 0) ∧
      (hasUnknownStatusBit m = true ↔ ∃ i, 14 < i ∧ m.testBit i) ∧
      (∀ s ∈ _unitstatus m,
        (∃ p ∈ unitConditions, s = p.2 ∧ m.testBit p.1) ∨
        (s = "Unknown error" ∧ ∃ i, 14 < i ∧ m.testBit i)) := by
  refine ⟨by decide, by decide, by decide, fun m hm => ⟨?_, ?_, ?_, ?_⟩⟩
  · intro p hp
    have htail : (if hasUnknownStatusBit m then ["Unknown error"] else []).count p.2 = 0 := by
      have hne : p.2 ≠ "Unknown error" := by
        have hall : ∀ q ∈ unitConditions, q.2 ≠ "Unknown error" := by decide
        exact hall p hp
      cases h : hasUnknownStatusBit m <;> simp [List.count_cons, hne]
    simp only [_unitstatus, List.count_append, htail, Nat.add_zero]
    rw [List.count_eq_countP, List.countP_map, List.countP_filter]
    simp only [unitConditions, List.mem_cons, List.not_mem_nil, or_false] at hp
    rcases hp with h | h | h | h | h | h | h | h | h | h | h | h | h | h <;>
      subst h <;>
      simp [unitConditions, List.countP_cons, Function.comp]
  · have hhead : ((unitConditions.filter fun p => m.testBit p.1).map Prod.snd).count
        "Unknown error" = 0 := by
      rw [List.count_eq_countP, List.countP_map, List.countP_filter]
      simp [unitConditions, List.countP_cons, Function.comp]
    simp only [_unitstatus, List.count_append, hhead, Nat.zero_add]
    cases h : hasUnknownStatusBit m <;> simp
  · constructor
    · intro h
      simp only [hasUnknownStatusBit, List.any_eq_true, List.mem_range,
        Bool.and_eq_true, decide_eq_true_eq] at h
      obtain ⟨i, _, h14, hbit⟩ := h
      exact ⟨i, h14, hbit⟩
    · rintro ⟨i, h14, hbit⟩
      by_cases hi : i < 32
      · simp only [hasUnknownStatusBit, List.any_eq_true, List.mem_range,
          Bool.and_eq_true, decide_eq_true_eq]
        exact ⟨i, hi, h14, hbit⟩
      · exfalso
        have hz : m.testBit i = false := Nat.testBit_lt_two_pow
          (lt_of_lt_of_le hm (Nat.pow_le_pow_right (by norm_num) (by omega)))
        simp [hz] at hbit
  · intro s hs
    simp only [_unitstatus, List.mem_append, List.mem_map, List.mem_filter] at hs
    rcases hs with ⟨q, ⟨hqmem, hqbit⟩, rfl⟩ | hs
    · exact Or.inl ⟨q, hqmem, rfl, hqbit⟩
    · cases h : hasUnknownStatusBit m
      · rw [h] at hs
        simp at hs
      · rw [h] at hs
        simp at hs
        refine Or.inr ⟨hs, ?_⟩
        simp only [hasUnknownStatusBit, List.any_eq_true, List.mem_range,
          Bool.and_eq_true, decide_eq_true_eq] at h
        obtain ⟨i, _, h14, hbit⟩ := h
        exact ⟨i, h14, hbit⟩
